import Mathlib

/-!
Verification of the streaming message-assembly and connection-resilience
engine of the frontend chat client (`src/frontend/src/hooks/use-session.ts`,
function `useChat`).

The TypeScript hook is embedded shallowly:

* React state (`messages`, `isConnected`, `isLoading`) and refs
  (`currentMsgRef`, `wsRef`, `reconnectTimerRef`) become fields of explicit
  state records (`ChatState` for the transcript assembler and outbound
  encoder, `ConnState` for the transport connection manager).
* The `ws.onmessage` switch becomes the total function `handleEvent`
  (one case per type tag), wrapped by `onmessage` which also models the
  surrounding `try`/`catch` (a frame that fails `JSON.parse` lands in the
  `catch` and is logged; a frame whose tag matches no `case` falls through
  the `switch` unchanged).
* `generateId()` (a fresh unique id per call) is modelled by a `nextId`
  counter threaded through the state; `new Date()` by a fixed `now` field.
* Chart payloads are opaque to the core, so they are represented by `Nat`.
* The browser `WebSocket` pool is modelled in `ConnState.connections`: the
  number of sockets constructed by `new WebSocket(...)` and not yet closed.
  `connect` increments it (the source never closes the previous socket
  there); the `close` event decrements it.
-/

/-- Usage-metering record (`tokenUsage` field of a chat message). -/
structure TokenUsage where
  input_tokens : Nat
  output_tokens : Nat
  model : String
deriving DecidableEq, Repr

/-- Author role of a turn. -/
inductive Role
  | user
  | assistant
deriving DecidableEq, Repr

/-- Opaque visualization payload (`PlotlyChartData`); the core never
interprets its contents, so any type with decidable equality serves. -/
abbrev PlotlyChartData := Nat

/-- One turn of the transcript (`ChatMessage` in `lib/types.ts`). -/
structure ChatMessage where
  id : Nat
  role : Role
  content : String
  charts : List PlotlyChartData
  toolStatus : Option String := none
  tokenUsage : Option TokenUsage := none
  timestamp : Nat := 0
  isStreaming : Bool
deriving DecidableEq, Repr

/-- Connection readiness of the underlying socket (`WebSocket.readyState`). -/
inductive ReadyState
  | connecting
  | opened
  | closing
  | closed
deriving DecidableEq, Repr

/-- The state owned by one `useChat` instance: React state plus refs, a
fresh-id supply for `generateId`, the `console.error` sink, and the list of
frames transmitted by `ws.send`. -/
structure ChatState where
  messages : List ChatMessage
  isConnected : Bool
  isLoading : Bool
  currentMsg : Option ChatMessage
  nextId : Nat
  now : Nat := 0
  ws : Option ReadyState := none
  log : List String := []
  sent : List String := []
deriving DecidableEq, Repr

/-- The state at mount time: empty transcript, no in-progress turn. -/
def initialState : ChatState :=
  { messages := [], isConnected := false, isLoading := false,
    currentMsg := none, nextId := 0 }

/-- Typed inbound protocol events, one constructor per known type tag of
the wire protocol. -/
inductive WSEvent
  | text_delta (content : String)
  | chart (data : PlotlyChartData)
  | tool_status (content : String)
  | token_usage (input_tokens output_tokens : Nat) (model : String)
  | message_end (tokenUsage : Option TokenUsage)
      (charts : Option (List PlotlyChartData))
  | error (content : String)
deriving DecidableEq, Repr

/-- Decoding outcome of one raw inbound frame: `malformed` when
`JSON.parse` throws, `unknownTag` when it parses but the `type` field
matches no `case` of the switch, `typed` otherwise. -/
inductive Frame
  | malformed
  | unknownTag
  | typed (e : WSEvent)
deriving DecidableEq, Repr

/-- Replace a message in the array by id with a shallow copy of the ref
(function `updateMsgById` of the source). -/
def updateMsgById (prev : List ChatMessage) (ref : Option ChatMessage) :
    List ChatMessage :=
  match ref with
  | none => prev
  | some r => prev.map (fun m => if m.id = r.id then r else m)

/-- The fresh assistant message built by the `text_delta` and `chart`
cases when no turn is in progress. -/
def newAssistantMsg (s : ChatState) : ChatMessage :=
  { id := s.nextId, role := Role.assistant, content := "", charts := [],
    timestamp := s.now, isStreaming := true }

/-- The finalized chart-only turns appended by the `message_end` case,
one per payload, in payload order (`endCharts.map` of the source), with
consecutive fresh ids. -/
def mkChartMsgs (nid : Nat) (now : Nat) :
    List PlotlyChartData → List ChatMessage
  | [] => []
  | c :: rest =>
      { id := nid, role := Role.assistant, content := "", charts := [c],
        timestamp := now, isStreaming := false } :: mkChartMsgs (nid + 1) now rest

/-- The mutation the `message_end` case applies to the in-progress turn:
stop streaming, clear the tool-status label, and overwrite the usage
record when one is bundled in the event. -/
def finalizeMsg (m : ChatMessage) (endUsage : Option TokenUsage) : ChatMessage :=
  { m with isStreaming := false, toolStatus := none,
           tokenUsage :=
             match endUsage with
             | some u => some u
             | none => m.tokenUsage }

/-- The body of the `ws.onmessage` switch: one transition per typed
event, translated case by case from the source. -/
def handleEvent (s : ChatState) (e : WSEvent) : ChatState :=
  match e with
  | .text_delta c =>
      match s.currentMsg with
      | some m =>
          let m' := { m with content := m.content ++ c }
          { s with currentMsg := some m',
                   messages := updateMsgById s.messages (some m') }
      | none =>
          let m := newAssistantMsg s
          let m' := { m with content := m.content ++ c }
          { s with currentMsg := some m',
                   messages := updateMsgById (s.messages ++ [m]) (some m'),
                   nextId := s.nextId + 1 }
  | .chart d =>
      match s.currentMsg with
      | some m =>
          let m' := { m with charts := m.charts ++ [d] }
          { s with currentMsg := some m',
                   messages := updateMsgById s.messages (some m') }
      | none =>
          let m := newAssistantMsg s
          let m' := { m with charts := m.charts ++ [d] }
          { s with currentMsg := some m',
                   messages := updateMsgById (s.messages ++ [m]) (some m'),
                   nextId := s.nextId + 1 }
  | .tool_status c =>
      match s.currentMsg with
      | some m =>
          let m' := { m with toolStatus := some c }
          { s with currentMsg := some m',
                   messages := updateMsgById s.messages (some m') }
      | none => s
  | .token_usage it ot model =>
      match s.currentMsg with
      | some m =>
          let m' := { m with tokenUsage := some ⟨it, ot, model⟩ }
          { s with currentMsg := some m',
                   messages := updateMsgById s.messages (some m') }
      | none => s
  | .message_end endUsage endCharts =>
      let s1 :=
        match s.currentMsg with
        | some m =>
            { s with messages := updateMsgById s.messages (some (finalizeMsg m endUsage)) }
        | none => s
      let s2 :=
        match endCharts with
        | some cs =>
            if cs.length > 0 then
              { s1 with messages := s1.messages ++ mkChartMsgs s1.nextId s1.now cs,
                        nextId := s1.nextId + cs.length }
            else s1
        | none => s1
      { s2 with currentMsg := none, isLoading := false }
  | .error _ => { s with currentMsg := none, isLoading := false }

/-- The full `ws.onmessage` handler: decode outcome dispatch plus the
surrounding `try`/`catch`. A malformed frame throws inside `JSON.parse`,
is caught, and `console.error` is called; a frame with an unknown tag
falls through the switch without any effect. -/
def onmessage (s : ChatState) (f : Frame) : ChatState :=
  match f with
  | .typed e => handleEvent s e
  | .unknownTag => s
  | .malformed => { s with log := s.log ++ ["[WS] message handler error:"] }

/-- Process a list of typed events in arrival order. -/
def foldEvents (s : ChatState) (es : List WSEvent) : ChatState :=
  es.foldl handleEvent s

/-- The `sendMessage` callback: gated on the socket being present and
`readyState === WebSocket.OPEN`; otherwise appends the user turn, sets
the busy flag, and transmits the outbound frame. -/
def sendMessage (s : ChatState) (content : String) : ChatState :=
  match s.ws with
  | some ReadyState.opened =>
      let userMsg : ChatMessage :=
        { id := s.nextId, role := Role.user, content := content, charts := [],
          timestamp := s.now, isStreaming := false }
      { s with messages := s.messages ++ [userMsg], isLoading := true,
               sent := s.sent ++ [content], nextId := s.nextId + 1 }
  | _ => s

/-- The `clearMessages` callback (the facade's `reset()`): the source
only empties the transcript. -/
def clearMessages (s : ChatState) : ChatState :=
  { s with messages := [] }

/-! ## Transport connection manager -/

/-- State of the transport connection manager: `connections` counts the
sockets constructed by `new WebSocket(...)` and not yet closed,
`connected` is the `isConnected` flag, `reconnectTimer` the pending
`setTimeout` delay (in ms) held in `reconnectTimerRef`. -/
structure ConnState where
  connections : Nat := 0
  connected : Bool := false
  reconnectTimer : Option Nat := none
deriving DecidableEq, Repr

/-- The `connect` callback: returns immediately on an empty session id,
otherwise constructs a new socket and overwrites `wsRef` — the previous
socket, if any, is neither closed nor its handlers removed. -/
def connect (sessionId : String) (s : ConnState) : ConnState :=
  if sessionId = "" then s
  else { s with connections := s.connections + 1 }

/-- Asynchronous occurrences delivered to the manager: the socket's
`onopen`, `onclose` and `onerror` callbacks, and the reconnect timer
firing. -/
inductive ConnEvent
  | opened
  | closed
  | errored
  | timerFired
deriving DecidableEq, Repr

/-- One transition of the connection manager, translated from the
handlers installed by `connect`: `onopen` sets connected and clears the
pending timer; `onclose` clears connected and schedules one reconnect
after 2000 ms (the closed socket leaves the pool); `onerror` only clears
connected; the timer firing calls `connect` again. -/
def connStep (sessionId : String) (s : ConnState) : ConnEvent → ConnState
  | .opened => { s with connected := true, reconnectTimer := none }
  | .closed => { s with connections := s.connections - 1, connected := false,
                        reconnectTimer := some 2000 }
  | .errored => { s with connected := false }
  | .timerFired =>
      match s.reconnectTimer with
      | some _ => connect sessionId { s with reconnectTimer := none }
      | none => s

/-- One close-then-reconnect round trip. -/
def reconnectCycle (sessionId : String) (s : ConnState) : ConnState :=
  connStep sessionId (connStep sessionId s .closed) .timerFired

/-! ## Derived observations and invariants -/

/-- Ids of the transcript, in order. -/
def idsOf (msgs : List ChatMessage) : List Nat :=
  msgs.map (·.id)

/-- Transcript lookup by id (first match). -/
def getById (msgs : List ChatMessage) (i : Nat) : Option ChatMessage :=
  msgs.find? (fun m => m.id = i)

/-- Concatenation of a list of strings in order. -/
def concatAll : List String → String
  | [] => ""
  | d :: ds => d ++ concatAll ds

/-- Well-formedness of the assembler state: transcript ids are distinct
and below the fresh-id supply, and the in-progress turn (when present)
is still streaming and synchronized with its transcript entry. -/
def WF (s : ChatState) : Prop :=
  (idsOf s.messages).Nodup ∧
  (∀ m ∈ s.messages, m.id < s.nextId) ∧
  (∀ m ∈ s.currentMsg.toList, m.id < s.nextId ∧ m.isStreaming = true ∧
      getById s.messages m.id = some m)

instance (s : ChatState) : Decidable (WF s) := by
  unfold WF
  infer_instance

/-! ## Helper lemmas -/

/-- Replacing a message by id does not change the id sequence. -/
lemma idsOf_updateMsgById (msgs : List ChatMessage) (r : ChatMessage) :
    idsOf (updateMsgById msgs (some r)) = idsOf msgs := by
  induction msgs with
  | nil => rfl
  | cons a t ih =>
      simp only [updateMsgById, idsOf, List.map_cons] at ih ⊢
      by_cases h : a.id = r.id
      · simp [h, ih]
      · simp [h, ih]

/-- Membership in the replaced list comes from the ref or the original. -/
lemma mem_updateMsgById (msgs : List ChatMessage) (r x : ChatMessage)
    (hx : x ∈ updateMsgById msgs (some r)) : x = r ∨ x ∈ msgs := by
  simp only [updateMsgById, List.mem_map] at hx
  obtain ⟨y, hy, hfy⟩ := hx
  by_cases h : y.id = r.id
  · left
    rw [← hfy]
    simp [h]
  · right
    rw [← hfy]
    simpa [h] using hy

/-- Lookup of the ref's id after replacement finds exactly the ref,
provided a message with that id was present. -/
lemma getById_updateMsgById (msgs : List ChatMessage) (r : ChatMessage)
    (h : ∃ x ∈ msgs, x.id = r.id) :
    getById (updateMsgById msgs (some r)) r.id = some r := by
  induction msgs with
  | nil => simp at h
  | cons a t ih =>
      by_cases ha : a.id = r.id
      · simp [updateMsgById, getById, ha]
      · have h' : ∃ x ∈ t, x.id = r.id := by
          obtain ⟨x, hx, hid⟩ := h
          rcases List.mem_cons.mp hx with rfl | hxt
          · exact absurd hid ha
          · exact ⟨x, hxt, hid⟩
        have := ih h'
        simpa [updateMsgById, getById, ha] using this

/-- Lookup succeeding in the left part of an append succeeds in the whole. -/
lemma getById_append_left (xs ys : List ChatMessage) (i : Nat) (m : ChatMessage)
    (h : getById xs i = some m) : getById (xs ++ ys) i = some m := by
  simp only [getById] at h ⊢
  rw [List.find?_append, h]
  rfl

/-- Extract the in-progress-turn facts from well-formedness. -/
lemma wf_cur (s : ChatState) (h : WF s) (m : ChatMessage)
    (hm : s.currentMsg = some m) :
    m.id < s.nextId ∧ m.isStreaming = true ∧ getById s.messages m.id = some m :=
  h.2.2 m (by rw [hm]; simp [Option.toList])

/-- In-place mutation of the in-progress turn (same id, still streaming)
preserves well-formedness. -/
lemma wf_update (s : ChatState) (m m' : ChatMessage) (hc : s.currentMsg = some m)
    (hwf : WF s) (hid : m'.id = m.id) (hstr : m'.isStreaming = true) :
    WF { s with currentMsg := some m',
                messages := updateMsgById s.messages (some m') } := by
  obtain ⟨hmid, hmstr, hget⟩ := wf_cur s hwf m hc
  obtain ⟨h1, h2, _⟩ := hwf
  have hmem : m ∈ s.messages := List.mem_of_find?_eq_some hget
  refine ⟨?_, ?_, ?_⟩
  · rw [idsOf_updateMsgById]
    exact h1
  · intro x hx
    rcases mem_updateMsgById _ _ _ hx with rfl | hx'
    · rw [hid]; exact hmid
    · exact h2 x hx'
  · intro x hx
    simp only [Option.toList, List.mem_singleton] at hx
    rw [hx]
    refine ⟨by rw [hid]; exact hmid, hstr, ?_⟩
    exact getById_updateMsgById s.messages m' ⟨m, hmem, hid ▸ rfl⟩

/-- Creating a fresh in-progress turn from IDLE (the id is the fresh
counter value, the turn streams) preserves well-formedness. -/
lemma wf_create (s : ChatState) (hwf : WF s) (m' : ChatMessage)
    (hid : m'.id = s.nextId) (hstr : m'.isStreaming = true) :
    WF { s with currentMsg := some m',
                messages := updateMsgById (s.messages ++ [newAssistantMsg s]) (some m'),
                nextId := s.nextId + 1 } := by
  obtain ⟨h1, h2, _⟩ := hwf
  have hids : idsOf (s.messages ++ [newAssistantMsg s])
      = idsOf s.messages ++ [s.nextId] := by
    simp [idsOf, newAssistantMsg]
  refine ⟨?_, ?_, ?_⟩
  · rw [idsOf_updateMsgById, hids]
    rw [List.nodup_append]
    refine ⟨h1, List.nodup_singleton _, ?_⟩
    intro a ha hb
    simp only [List.mem_singleton] at hb
    subst hb
    simp only [idsOf, List.mem_map] at ha
    obtain ⟨x, hx, hxa⟩ := ha
    exact absurd (hxa ▸ h2 x hx) (lt_irrefl _)
  · intro x hx
    rcases mem_updateMsgById _ _ _ hx with rfl | hx'
    · rw [hid]; exact Nat.lt_succ_self _
    · rcases List.mem_append.mp hx' with hx'' | hx''
      · exact Nat.lt_succ_of_lt (h2 x hx'')
      · simp only [List.mem_singleton] at hx''
        subst hx''
        simp [newAssistantMsg]
  · intro x hx
    simp only [Option.toList, List.mem_singleton] at hx
    rw [hx]
    refine ⟨by rw [hid]; exact Nat.lt_succ_self _, hstr, ?_⟩
    refine getById_updateMsgById _ m' ⟨newAssistantMsg s, ?_, ?_⟩
    · simp
    · simp [newAssistantMsg, hid]

/-- Every `text_delta` transition preserves well-formedness. -/
lemma wf_text_delta (s : ChatState) (c : String) (hwf : WF s) :
    WF (handleEvent s (WSEvent.text_delta c)) := by
  cases hc : s.currentMsg with
  | some m =>
      simp only [handleEvent, hc]
      exact wf_update s m _ hc hwf rfl (wf_cur s hwf m hc).2.1
  | none =>
      simp only [handleEvent, hc]
      exact wf_create s hwf _ rfl rfl

/-- Folding `text_delta` events preserves well-formedness. -/
lemma wf_fold_text_delta (ds : List String) :
    ∀ s : ChatState, WF s → WF (foldEvents s (ds.map WSEvent.text_delta)) := by
  induction ds with
  | nil => intro s h; exact h
  | cons d ds ih =>
      intro s h
      simpa [foldEvents] using ih _ (wf_text_delta s d h)

/-- Folding `text_delta` events over an in-progress turn appends the
concatenation of the deltas to its content and keeps its id. -/
lemma currentMsg_fold_text_delta (ds : List String) :
    ∀ (s : ChatState) (m : ChatMessage), s.currentMsg = some m →
      ∃ m', (foldEvents s (ds.map WSEvent.text_delta)).currentMsg = some m' ∧
        m'.id = m.id ∧ m'.content = m.content ++ concatAll ds := by
  induction ds with
  | nil =>
      intro s m hm
      exact ⟨m, hm, rfl, by simp [concatAll]⟩
  | cons d ds ih =>
      intro s m hm
      have hstep : (handleEvent s (WSEvent.text_delta d)).currentMsg
          = some { m with content := m.content ++ d } := by
        simp [handleEvent, hm]
      obtain ⟨m', hm', hid, hc⟩ := ih _ _ hstep
      refine ⟨m', by simpa [foldEvents] using hm', by simpa using hid, ?_⟩
      rw [hc]
      simp [concatAll, String.append_assoc]

/-- The chart-only turns built by `message_end` have the announced length. -/
lemma length_mkChartMsgs (now : Nat) (cs : List PlotlyChartData) :
    ∀ nid, (mkChartMsgs nid now cs).length = cs.length := by
  induction cs with
  | nil => intro nid; rfl
  | cons c rest ih => intro nid; simp [mkChartMsgs, ih]

/-- The chart-only turns built by `message_end` pair up with the payloads:
each is an assistant turn with empty content, exactly that one chart, and
not streaming. -/
lemma forall₂_mkChartMsgs (now : Nat) (cs : List PlotlyChartData) :
    ∀ nid, List.Forall₂
      (fun (t : ChatMessage) c => t.role = Role.assistant ∧ t.content = "" ∧
        t.charts = [c] ∧ t.isStreaming = false)
      (mkChartMsgs nid now cs) cs := by
  induction cs with
  | nil => intro nid; exact List.Forall₂.nil
  | cons c rest ih =>
      intro nid
      exact List.Forall₂.cons ⟨rfl, rfl, rfl, rfl⟩ (ih (nid + 1))

/-- Shape of the transcript after a `message_end` carrying a non-empty
chart list: a prefix with the original id sequence, then the fresh
chart-only turns. -/
lemma message_end_messages_shape (s : ChatState) (u : Option TokenUsage)
    (cs : List PlotlyChartData) (hl : 0 < cs.length) :
    ∃ base, (handleEvent s (WSEvent.message_end u (some cs))).messages
        = base ++ mkChartMsgs s.nextId s.now cs ∧ idsOf base = idsOf s.messages := by
  cases hm : s.currentMsg with
  | none => exact ⟨s.messages, by simp [handleEvent, hm, hl], rfl⟩
  | some m =>
      exact ⟨updateMsgById s.messages (some (finalizeMsg m u)),
        by simp [handleEvent, hm, hl], idsOf_updateMsgById _ _⟩

/-- The mount-time state is well-formed. -/
lemma wf_initialState : WF initialState := by
  constructor
  · simp [initialState, idsOf]
  constructor
  · simp [initialState]
  · simp [initialState]

/-- Ids of the chart-only turns lie in the fresh range. -/
lemma mkChartMsgs_id_bounds (now : Nat) (cs : List PlotlyChartData) :
    ∀ nid, ∀ x ∈ mkChartMsgs nid now cs, nid ≤ x.id ∧ x.id < nid + cs.length := by
  induction cs with
  | nil => intro nid x hx; simp [mkChartMsgs] at hx
  | cons c rest ih =>
      intro nid x hx
      simp only [mkChartMsgs, List.mem_cons] at hx
      rcases hx with rfl | hx
      · simp
      · obtain ⟨h1, h2⟩ := ih (nid + 1) x hx
        refine ⟨Nat.le_of_succ_le h1, ?_⟩
        simp only [List.length_cons]
        omega

/-- Ids of the chart-only turns are distinct. -/
lemma mkChartMsgs_ids_nodup (now : Nat) (cs : List PlotlyChartData) :
    ∀ nid, (idsOf (mkChartMsgs nid now cs)).Nodup := by
  induction cs with
  | nil => intro nid; simp [mkChartMsgs, idsOf]
  | cons c rest ih =>
      intro nid
      simp only [mkChartMsgs, idsOf, List.map_cons, List.nodup_cons]
      refine ⟨?_, ih (nid + 1)⟩
      intro hmem
      simp only [idsOf, List.mem_map] at hmem
      obtain ⟨x, hx, hxid⟩ := hmem
      have := (mkChartMsgs_id_bounds now rest (nid + 1) x hx).1
      omega

/-- Every `message_end` transition preserves well-formedness. -/
lemma wf_message_end (s : ChatState) (u : Option TokenUsage)
    (cs : Option (List PlotlyChartData)) (hwf : WF s) :
    WF (handleEvent s (WSEvent.message_end u cs)) := by
  have h1 := hwf.1
  have h2 := hwf.2.1
  have hbase : ∀ base : List ChatMessage,
      (idsOf base).Nodup → (∀ x ∈ base, x.id < s.nextId) →
      ∀ cl : List PlotlyChartData,
        (idsOf (base ++ mkChartMsgs s.nextId s.now cl)).Nodup ∧
        (∀ x ∈ base ++ mkChartMsgs s.nextId s.now cl, x.id < s.nextId + cl.length) := by
    intro base hb1 hb2 cl
    constructor
    · simp only [idsOf, List.map_append, List.nodup_append]
      refine ⟨hb1, mkChartMsgs_ids_nodup s.now cl s.nextId, ?_⟩
      intro a ha hb
      simp only [List.mem_map] at ha hb
      obtain ⟨x, hx, hxa⟩ := ha
      obtain ⟨y, hy, hya⟩ := hb
      have hxlt := hb2 x hx
      have hyge := (mkChartMsgs_id_bounds s.now cl s.nextId y hy).1
      omega
    · intro x hx
      rcases List.mem_append.mp hx with hx' | hx'
      · exact Nat.lt_of_lt_of_le (hb2 x hx') (Nat.le_add_right _ _)
      · exact (mkChartMsgs_id_bounds s.now cl s.nextId x hx').2
  cases hm : s.currentMsg with
  | none =>
      cases cs with
      | none =>
          refine ⟨?_, ?_, ?_⟩
          · simpa [handleEvent, hm] using h1
          · intro x hx
            simp only [handleEvent, hm] at hx ⊢
            exact h2 x hx
          · intro x hx
            simp [handleEvent, hm, Option.toList] at hx
      | some cl =>
          by_cases hl : cl.length > 0
          · obtain ⟨hn, hb⟩ := hbase s.messages h1 h2 cl
            refine ⟨?_, ?_, ?_⟩
            · simpa [handleEvent, hm, hl] using hn
            · intro x hx
              simp only [handleEvent, hm, hl, if_pos hl] at hx ⊢
              exact hb x hx
            · intro x hx
              simp [handleEvent, hm, hl, Option.toList] at hx
          · refine ⟨?_, ?_, ?_⟩
            · simpa [handleEvent, hm, hl] using h1
            · intro x hx
              simp only [handleEvent, hm, hl, if_neg hl] at hx ⊢
              exact h2 x hx
            · intro x hx
              simp [handleEvent, hm, hl, Option.toList] at hx
  | some m =>
      obtain ⟨hmid, hmstr, hget⟩ := wf_cur s hwf m hm
      have hb1 : (idsOf (updateMsgById s.messages (some (finalizeMsg m u)))).Nodup := by
        rw [idsOf_updateMsgById]; exact h1
      have hb2 : ∀ x ∈ updateMsgById s.messages (some (finalizeMsg m u)),
          x.id < s.nextId := by
        intro x hx
        rcases mem_updateMsgById _ _ _ hx with rfl | hx'
        · exact hmid
        · exact h2 x hx'
      cases cs with
      | none =>
          refine ⟨?_, ?_, ?_⟩
          · simpa [handleEvent, hm] using hb1
          · intro x hx
            simp only [handleEvent, hm] at hx ⊢
            exact hb2 x hx
          · intro x hx
            simp [handleEvent, hm, Option.toList] at hx
      | some cl =>
          by_cases hl : cl.length > 0
          · obtain ⟨hn, hb⟩ := hbase _ hb1 hb2 cl
            refine ⟨?_, ?_, ?_⟩
            · simpa [handleEvent, hm, hl] using hn
            · intro x hx
              simp only [handleEvent, hm, hl, if_pos hl] at hx ⊢
              exact hb x hx
            · intro x hx
              simp [handleEvent, hm, hl, Option.toList] at hx
          · refine ⟨?_, ?_, ?_⟩
            · simpa [handleEvent, hm, hl] using hb1
            · intro x hx
              simp only [handleEvent, hm, hl, if_neg hl] at hx ⊢
              exact hb2 x hx
            · intro x hx
              simp [handleEvent, hm, hl, Option.toList] at hx

/-- Every typed transition preserves well-formedness: the assembler
cannot corrupt the id bookkeeping or the in-progress synchronization. -/
lemma wf_handleEvent (s : ChatState) (e : WSEvent) (hwf : WF s) :
    WF (handleEvent s e) := by
  cases e with
  | text_delta c => exact wf_text_delta s c hwf
  | chart d =>
      cases hc : s.currentMsg with
      | some m =>
          simp only [handleEvent, hc]
          exact wf_update s m _ hc hwf rfl (wf_cur s hwf m hc).2.1
      | none =>
          simp only [handleEvent, hc]
          exact wf_create s hwf _ rfl rfl
  | tool_status c =>
      cases hc : s.currentMsg with
      | some m =>
          simp only [handleEvent, hc]
          exact wf_update s m _ hc hwf rfl (wf_cur s hwf m hc).2.1
      | none => simpa [handleEvent, hc] using hwf
  | token_usage it ot model =>
      cases hc : s.currentMsg with
      | some m =>
          simp only [handleEvent, hc]
          exact wf_update s m _ hc hwf rfl (wf_cur s hwf m hc).2.1
      | none => simpa [handleEvent, hc] using hwf
  | message_end u cs => exact wf_message_end s u cs hwf
  | error c =>
      obtain ⟨h1, h2, _⟩ := hwf
      refine ⟨h1, h2, ?_⟩
      intro x hx
      simp [handleEvent, Option.toList] at hx

/-- `sendMessage` preserves well-formedness: the user turn takes the
fresh id and the in-progress reference is untouched. -/
lemma wf_sendMessage (s : ChatState) (content : String) (hwf : WF s) :
    WF (sendMessage s content) := by
  obtain ⟨h1, h2, h3⟩ := hwf
  cases hw : s.ws with
  | none => simpa [sendMessage, hw] using ⟨h1, h2, h3⟩
  | some rs =>
      cases rs with
      | opened =>
          refine ⟨?_, ?_, ?_⟩
          · simp only [sendMessage, hw, idsOf, List.map_append, List.nodup_append]
            refine ⟨h1, by simp, ?_⟩
            intro a ha hb
            simp only [List.map_cons, List.map_nil, List.mem_singleton] at hb
            subst hb
            simp only [List.mem_map] at ha
            obtain ⟨x, hx, hxa⟩ := ha
            exact absurd (hxa ▸ h2 x hx) (lt_irrefl _)
          · intro x hx
            simp only [sendMessage, hw] at hx ⊢
            rcases List.mem_append.mp hx with hx' | hx'
            · exact Nat.lt_succ_of_lt (h2 x hx')
            · simp only [List.mem_singleton] at hx'
              subst hx'
              simp
          · intro x hx
            simp only [sendMessage, hw] at hx ⊢
            obtain ⟨hxid, hxstr, hxget⟩ := h3 x hx
            exact ⟨Nat.lt_succ_of_lt hxid, hxstr, getById_append_left _ _ _ _ hxget⟩
      | connecting => simpa [sendMessage, hw] using ⟨h1, h2, h3⟩
      | closing => simpa [sendMessage, hw] using ⟨h1, h2, h3⟩
      | closed => simpa [sendMessage, hw] using ⟨h1, h2, h3⟩

/-! ## Claims -/

/-- C1: for every sequence of `text_delta` events processed from IDLE,
the in-progress turn created by the first delta ends with content equal
to the concatenation of the deltas in arrival order, and the transcript
entry with its id carries exactly that turn. -/
theorem text_delta_concatenation (s : ChatState) (hwf : WF s)
    (hidle : s.currentMsg = none) (ds : List String) (hne : ds ≠ []) :
    ∃ m, (foldEvents s (ds.map WSEvent.text_delta)).currentMsg = some m ∧
      m.content = concatAll ds ∧
      getById (foldEvents s (ds.map WSEvent.text_delta)).messages m.id = some m := by
  cases ds with
  | nil => exact absurd rfl hne
  | cons d ds =>
      have h1 : (handleEvent s (WSEvent.text_delta d)).currentMsg
          = some { newAssistantMsg s with
                     content := (newAssistantMsg s).content ++ d } := by
        simp [handleEvent, hidle]
      obtain ⟨m', hm', hid, hc⟩ := currentMsg_fold_text_delta ds _ _ h1
      have hwf2 : WF (foldEvents (handleEvent s (WSEvent.text_delta d))
          (ds.map WSEvent.text_delta)) :=
        wf_fold_text_delta ds _ (wf_text_delta s d hwf)
      have hfold : foldEvents s ((d :: ds).map WSEvent.text_delta)
          = foldEvents (handleEvent s (WSEvent.text_delta d))
              (ds.map WSEvent.text_delta) := by
        simp [foldEvents]
      refine ⟨m', by rw [hfold]; exact hm', ?_, ?_⟩
      · rw [hc]
        simp [newAssistantMsg, concatAll]
      · rw [hfold]
        exact (wf_cur _ hwf2 m' hm').2.2

/-- Witness for C1 at the concrete delta sequence of scenario A. -/
theorem text_delta_concatenation_witness :
    WF initialState ∧ initialState.currentMsg = none ∧
    (["Avg FPS ", "is 120"] : List String) ≠ [] ∧
    ∃ m, (foldEvents initialState
        ((["Avg FPS ", "is 120"] : List String).map WSEvent.text_delta)).currentMsg
          = some m ∧
      m.content = concatAll ["Avg FPS ", "is 120"] ∧
      getById (foldEvents initialState
        ((["Avg FPS ", "is 120"] : List String).map WSEvent.text_delta)).messages m.id
          = some m :=
  ⟨by decide, by decide, by decide,
    text_delta_concatenation initialState (by decide) (by decide) _ (by decide)⟩

example :
    (foldEvents initialState
      [.text_delta "Avg FPS ", .text_delta "is 120", .message_end none none]).messages
      = [{ id := 0, role := Role.assistant, content := "Avg FPS is 120",
           charts := [], isStreaming := false }] := by
  decide

/-- C2: after any `message_end` event the in-progress reference is null,
and if a turn was in progress its transcript entry is no longer
streaming, has its tool-status label cleared, and carries a usage record
bundled in the event when one is present (keeping the previous one
otherwise). -/
theorem message_end_finalizes (s : ChatState) (hwf : WF s)
    (u : Option TokenUsage) (cs : Option (List PlotlyChartData)) :
    (handleEvent s (WSEvent.message_end u cs)).currentMsg = none ∧
    ∀ m, s.currentMsg = some m →
      ∃ m', getById (handleEvent s (WSEvent.message_end u cs)).messages m.id = some m' ∧
        m'.isStreaming = false ∧ m'.toolStatus = none ∧
        (∀ tu, u = some tu → m'.tokenUsage = some tu) ∧
        (u = none → m'.tokenUsage = m.tokenUsage) := by
  constructor
  · rfl
  · intro m hm
    obtain ⟨hmid, hmstr, hget⟩ := wf_cur s hwf m hm
    have hmem : m ∈ s.messages := List.mem_of_find?_eq_some hget
    have hfind : getById (updateMsgById s.messages (some (finalizeMsg m u))) m.id
        = some (finalizeMsg m u) :=
      getById_updateMsgById s.messages (finalizeMsg m u) ⟨m, hmem, rfl⟩
    refine ⟨finalizeMsg m u, ?_, rfl, rfl, ?_, ?_⟩
    · cases cs with
      | none =>
          have hmsg : (handleEvent s (WSEvent.message_end u none)).messages
              = updateMsgById s.messages (some (finalizeMsg m u)) := by
            simp [handleEvent, hm]
          rw [hmsg]
          exact hfind
      | some cl =>
          by_cases hl : cl.length > 0
          · have hmsg : (handleEvent s (WSEvent.message_end u (some cl))).messages
                = updateMsgById s.messages (some (finalizeMsg m u))
                    ++ mkChartMsgs s.nextId s.now cl := by
              simp [handleEvent, hm, hl]
            rw [hmsg]
            exact getById_append_left _ _ _ _ hfind
          · have hmsg : (handleEvent s (WSEvent.message_end u (some cl))).messages
                = updateMsgById s.messages (some (finalizeMsg m u)) := by
              simp [handleEvent, hm, hl]
            rw [hmsg]
            exact hfind
    · intro tu htu
      subst htu
      rfl
    · intro hu
      subst hu
      rfl

/-- Witness for C2 at a concrete mid-stream state with a bundled usage
record. -/
theorem message_end_finalizes_witness :
    WF (handleEvent initialState (WSEvent.text_delta "hi")) ∧
    ((handleEvent (handleEvent initialState (WSEvent.text_delta "hi"))
        (WSEvent.message_end (some ⟨10, 5, "x"⟩) none)).currentMsg = none ∧
      ∀ m, (handleEvent initialState (WSEvent.text_delta "hi")).currentMsg = some m →
        ∃ m', getById (handleEvent (handleEvent initialState (WSEvent.text_delta "hi"))
            (WSEvent.message_end (some ⟨10, 5, "x"⟩) none)).messages m.id = some m' ∧
          m'.isStreaming = false ∧ m'.toolStatus = none ∧
          (∀ tu, (some (⟨10, 5, "x"⟩ : TokenUsage)) = some tu → m'.tokenUsage = some tu) ∧
          ((some (⟨10, 5, "x"⟩ : TokenUsage)) = none → m'.tokenUsage = m.tokenUsage)) :=
  ⟨by decide,
    message_end_finalizes (handleEvent initialState (WSEvent.text_delta "hi"))
      (by decide) (some ⟨10, 5, "x"⟩) none⟩

/-- C3: a `message_end` carrying a non-empty chart list appends one new
finalized, content-less assistant turn per payload, in list order, after
the existing transcript entries. -/
theorem message_end_chart_turns (s : ChatState) (u : Option TokenUsage)
    (cs : List PlotlyChartData) (hne : cs ≠ []) :
    (handleEvent s (WSEvent.message_end u (some cs))).messages.length
        = s.messages.length + cs.length ∧
    idsOf (((handleEvent s (WSEvent.message_end u (some cs))).messages).take
        s.messages.length) = idsOf s.messages ∧
    List.Forall₂ (fun (t : ChatMessage) c => t.role = Role.assistant ∧
        t.content = "" ∧ t.charts = [c] ∧ t.isStreaming = false)
      (((handleEvent s (WSEvent.message_end u (some cs))).messages).drop
        s.messages.length) cs := by
  have hl : 0 < cs.length := List.length_pos.mpr hne
  obtain ⟨base, heq, hids⟩ := message_end_messages_shape s u cs hl
  have hblen : base.length = s.messages.length := by
    have h := congrArg List.length hids
    simpa [idsOf] using h
  refine ⟨?_, ?_, ?_⟩
  · rw [heq]
    simp [List.length_append, hblen, length_mkChartMsgs]
  · rw [heq, ← hblen, List.take_left]
    exact hids
  · rw [heq, ← hblen, List.drop_left]
    exact forall₂_mkChartMsgs s.now cs s.nextId

/-- Witness for C3 at scenario B: one streamed chart, then a
`message_end` bundling one more chart, yielding exactly two finalized
single-chart assistant turns. -/
theorem message_end_chart_turns_witness :
    ([2] : List PlotlyChartData) ≠ [] ∧
    ((handleEvent (handleEvent initialState (WSEvent.chart 1))
        (WSEvent.message_end none (some [2]))).messages.length
        = (handleEvent initialState (WSEvent.chart 1)).messages.length + ([2] : List PlotlyChartData).length ∧
      idsOf (((handleEvent (handleEvent initialState (WSEvent.chart 1))
          (WSEvent.message_end none (some [2]))).messages).take
          (handleEvent initialState (WSEvent.chart 1)).messages.length)
        = idsOf (handleEvent initialState (WSEvent.chart 1)).messages ∧
      List.Forall₂ (fun (t : ChatMessage) c => t.role = Role.assistant ∧
          t.content = "" ∧ t.charts = [c] ∧ t.isStreaming = false)
        (((handleEvent (handleEvent initialState (WSEvent.chart 1))
            (WSEvent.message_end none (some [2]))).messages).drop
          (handleEvent initialState (WSEvent.chart 1)).messages.length)
        ([2] : List PlotlyChartData)) ∧
    (handleEvent (handleEvent initialState (WSEvent.chart 1))
        (WSEvent.message_end none (some [2]))).messages
      = [{ id := 0, role := Role.assistant, content := "", charts := [1],
           isStreaming := false },
         { id := 1, role := Role.assistant, content := "", charts := [2],
           isStreaming := false }] :=
  ⟨by decide,
    message_end_chart_turns (handleEvent initialState (WSEvent.chart 1))
      none [2] (by decide),
    by decide⟩

/-- C4: every closure clears the connected flag and schedules exactly one
reconnect with the fixed 2000 ms delay; the timer firing calls `connect`
again (constructing a connection whenever the session id is non-empty);
a successful open clears any pending timer and sets the connected flag;
the 2000 ms delay recurs unchanged after any number of
close-and-reconnect cycles, with no backoff and no retry limit. -/
theorem reconnect_fixed_delay (sid : String) (hsid : sid ≠ "") (s : ConnState) :
    ((connStep sid s ConnEvent.closed).connected = false ∧
      (connStep sid s ConnEvent.closed).reconnectTimer = some 2000) ∧
    ((connStep sid s ConnEvent.opened).connected = true ∧
      (connStep sid s ConnEvent.opened).reconnectTimer = none) ∧
    (∀ t : ConnState, t.reconnectTimer = some 2000 →
      connStep sid t ConnEvent.timerFired
          = connect sid { t with reconnectTimer := none } ∧
      (connStep sid t ConnEvent.timerFired).connections = t.connections + 1) ∧
    (∀ n : Nat,
      (connStep sid ((reconnectCycle sid)^[n] s) ConnEvent.closed).reconnectTimer
        = some 2000) := by
  refine ⟨⟨rfl, rfl⟩, ⟨rfl, rfl⟩, ?_, ?_⟩
  · intro t ht
    constructor
    · simp [connStep, ht]
    · simp [connStep, ht, connect, hsid]
  · intro n
    rfl

/-- Witness for C4 at a concrete session id and start state. -/
theorem reconnect_fixed_delay_witness :
    ("s1" : String) ≠ "" ∧
    (((connStep "s1" { connections := 1, connected := true, reconnectTimer := none }
          ConnEvent.closed).connected = false ∧
      (connStep "s1" { connections := 1, connected := true, reconnectTimer := none }
          ConnEvent.closed).reconnectTimer = some 2000) ∧
    ((connStep "s1" { connections := 1, connected := true, reconnectTimer := none }
          ConnEvent.opened).connected = true ∧
      (connStep "s1" { connections := 1, connected := true, reconnectTimer := none }
          ConnEvent.opened).reconnectTimer = none) ∧
    (∀ t : ConnState, t.reconnectTimer = some 2000 →
      connStep "s1" t ConnEvent.timerFired
          = connect "s1" { t with reconnectTimer := none } ∧
      (connStep "s1" t ConnEvent.timerFired).connections = t.connections + 1) ∧
    (∀ n : Nat,
      (connStep "s1" ((reconnectCycle "s1")^[n]
          { connections := 1, connected := true, reconnectTimer := none })
          ConnEvent.closed).reconnectTimer = some 2000)) :=
  ⟨by decide,
    reconnect_fixed_delay "s1" (by decide)
      { connections := 1, connected := true, reconnectTimer := none }⟩

/-- C5 counterexample: from a state with one pending connection, a second
`connect` call yields two live connections — the source constructs a new
socket and overwrites the reference without closing the previous one, so
the at-most-one invariant fails. -/
theorem connect_not_idempotent :
    (connect "s1" (connect "s1"
        { connections := 0, connected := false, reconnectTimer := none })).connections
      = 2 ∧
    ¬ (connect "s1" (connect "s1"
        { connections := 0, connected := false, reconnectTimer := none })).connections
      ≤ 1 := by
  decide

/-- C5 amended: every `connect` call with a non-empty session id
constructs one more underlying connection without closing the previous
one; calling it while an attempt is pending therefore yields a second
concurrent connection. -/
theorem connect_adds_connection (sid : String) (hsid : sid ≠ "") (s : ConnState) :
    (connect sid s).connections = s.connections + 1 := by
  simp [connect, hsid]

/-- Witness for the amended C5 at a concrete pending connection. -/
theorem connect_adds_connection_witness :
    ("s1" : String) ≠ "" ∧
    (connect "s1" { connections := 1, connected := false, reconnectTimer := none }).connections
      = ({ connections := 1, connected := false, reconnectTimer := none : ConnState}).connections + 1 :=
  ⟨by decide,
    connect_adds_connection "s1" (by decide)
      { connections := 1, connected := false, reconnectTimer := none }⟩

/-- C6: `sendMessage` while the socket is absent or not in the OPEN ready
state is a perfect no-op — the whole state (transcript, busy flag, and
transmitted-frame list included) is unchanged. -/
theorem send_disconnected_noop (s : ChatState) (content : String)
    (h : s.ws ≠ some ReadyState.opened) :
    sendMessage s content = s := by
  cases hw : s.ws with
  | none => simp [sendMessage, hw]
  | some rs =>
      cases rs with
      | opened => exact absurd hw h
      | connecting => simp [sendMessage, hw]
      | closing => simp [sendMessage, hw]
      | closed => simp [sendMessage, hw]

/-- Witness for C6 at the disconnected initial state. -/
theorem send_disconnected_noop_witness :
    initialState.ws ≠ some ReadyState.opened ∧
    sendMessage initialState "hello" = initialState :=
  ⟨by decide, send_disconnected_noop initialState "hello" (by decide)⟩

/-- C7: an `error` event while a turn is in progress clears the
in-progress reference, leaves the transcript exactly as it was, and the
partially built turn stays in it still marked streaming. -/
theorem error_leaves_partial_turn (s : ChatState) (m : ChatMessage) (hwf : WF s)
    (hm : s.currentMsg = some m) (c : String) :
    (handleEvent s (WSEvent.error c)).currentMsg = none ∧
    (handleEvent s (WSEvent.error c)).messages = s.messages ∧
    m.isStreaming = true ∧
    getById (handleEvent s (WSEvent.error c)).messages m.id = some m := by
  obtain ⟨_, hstr, hget⟩ := wf_cur s hwf m hm
  exact ⟨rfl, rfl, hstr, hget⟩

/-- Witness for C7 at a concrete mid-stream state. -/
theorem error_leaves_partial_turn_witness :
    WF (handleEvent initialState (WSEvent.text_delta "par")) ∧
    (handleEvent initialState (WSEvent.text_delta "par")).currentMsg
      = some { id := 0, role := Role.assistant, content := "par", charts := [],
               isStreaming := true } ∧
    ((handleEvent (handleEvent initialState (WSEvent.text_delta "par"))
        (WSEvent.error "boom")).currentMsg = none ∧
      (handleEvent (handleEvent initialState (WSEvent.text_delta "par"))
        (WSEvent.error "boom")).messages
        = (handleEvent initialState (WSEvent.text_delta "par")).messages ∧
      ({ id := 0, role := Role.assistant, content := "par", charts := [],
         isStreaming := true : ChatMessage }).isStreaming = true ∧
      getById (handleEvent (handleEvent initialState (WSEvent.text_delta "par"))
          (WSEvent.error "boom")).messages
        ({ id := 0, role := Role.assistant, content := "par", charts := [],
           isStreaming := true : ChatMessage }).id
        = some { id := 0, role := Role.assistant, content := "par", charts := [],
                 isStreaming := true }) :=
  ⟨by decide, by decide,
    error_leaves_partial_turn (handleEvent initialState (WSEvent.text_delta "par"))
      { id := 0, role := Role.assistant, content := "par", charts := [],
        isStreaming := true }
      (by decide) (by decide) "boom"⟩

/-- C8 counterexample: a frame whose type tag matches no known case is
dropped with the state — the `console.error` log included — left
entirely unchanged, so no decoding failure is reported for it. -/
theorem unknown_tag_not_logged :
    onmessage initialState Frame.unknownTag = initialState ∧
    (onmessage initialState Frame.unknownTag).log = initialState.log ∧
    initialState.log = [] := by
  decide

/-- C8 amended: a frame that fails JSON decoding is logged and dropped,
while a frame with an unknown type tag is dropped silently; in both
cases the transcript, the in-progress reference, the busy flag and the
connected flag are unchanged (and the handler, being a total function,
raises nothing past its boundary). -/
theorem malformed_frames_safe (s : ChatState) :
    (onmessage s Frame.malformed).messages = s.messages ∧
    (onmessage s Frame.malformed).currentMsg = s.currentMsg ∧
    (onmessage s Frame.malformed).isLoading = s.isLoading ∧
    (onmessage s Frame.malformed).isConnected = s.isConnected ∧
    (onmessage s Frame.malformed).log = s.log ++ ["[WS] message handler error:"] ∧
    onmessage s Frame.unknownTag = s :=
  ⟨rfl, rfl, rfl, rfl, rfl, rfl⟩

/-- C9: the source `clearMessages` empties the transcript and leaves the
connection fields alone, but does NOT clear the in-progress reference:
after a reset during streaming the reference still holds the discarded
turn, and a late `text_delta` mutates that discarded object while the
transcript stays empty. -/
theorem reset_keeps_in_progress_reference :
    (clearMessages (handleEvent initialState (WSEvent.text_delta "par"))).messages = [] ∧
    (clearMessages (handleEvent initialState (WSEvent.text_delta "par"))).currentMsg
      = some { id := 0, role := Role.assistant, content := "par", charts := [],
               isStreaming := true } ∧
    (clearMessages (handleEvent initialState (WSEvent.text_delta "par"))).currentMsg
      ≠ none ∧
    (handleEvent (clearMessages (handleEvent initialState (WSEvent.text_delta "par")))
        (WSEvent.text_delta "tial")).messages = [] ∧
    (handleEvent (clearMessages (handleEvent initialState (WSEvent.text_delta "par")))
        (WSEvent.text_delta "tial")).currentMsg
      = some { id := 0, role := Role.assistant, content := "partial", charts := [],
               isStreaming := true } ∧
    (clearMessages (handleEvent initialState (WSEvent.text_delta "par"))).ws
      = (handleEvent initialState (WSEvent.text_delta "par")).ws ∧
    (clearMessages (handleEvent initialState (WSEvent.text_delta "par"))).isConnected
      = (handleEvent initialState (WSEvent.text_delta "par")).isConnected := by
  decide

/-- C10: `message_end` and `error` clear the busy flag even when no turn
is in progress. -/
theorem terminal_clears_busy (s : ChatState) (_h : s.currentMsg = none)
    (u : Option TokenUsage) (cs : Option (List PlotlyChartData)) (c : String) :
    (handleEvent s (WSEvent.message_end u cs)).isLoading = false ∧
    (handleEvent s (WSEvent.error c)).isLoading = false :=
  ⟨rfl, rfl⟩

/-- Witness for C10 at a concrete busy, idle state. -/
theorem terminal_clears_busy_witness :
    ({ messages := [], isConnected := true, isLoading := true, currentMsg := none,
       nextId := 0 : ChatState }).currentMsg = none ∧
    ((handleEvent
        { messages := [], isConnected := true, isLoading := true,
          currentMsg := none, nextId := 0 }
        (WSEvent.message_end none none)).isLoading = false ∧
      (handleEvent
        { messages := [], isConnected := true, isLoading := true,
          currentMsg := none, nextId := 0 }
        (WSEvent.error "boom")).isLoading = false) :=
  ⟨by decide,
    terminal_clears_busy
      { messages := [], isConnected := true, isLoading := true, currentMsg := none,
        nextId := 0 }
      (by decide) none none "boom"⟩
